import Mathlib

/-!
Verification of the computational core of the `workshop2018` ensemble
verification notebook (`notebooks/verification.ipynb`).

The notebook defines two functions:

* `lat_lon_2D_index y x lat1 lon1` — given 2D latitude/longitude grids and a
  target point, computes the haversine great-circle distance from the target
  to every grid cell and returns the `(row, column)` index of the nearest cell
  via `np.unravel_index(d.argmin(), d.shape)`;
* `rmse predictions targets` — `np.sqrt(((predictions - targets) ** 2).mean())`.

The embedding below models real arithmetic with `ℝ`.  Grids are total
functions `ℕ → ℕ → ℝ` together with an explicit shape `(m, n)`; the latitude
and longitude grids share that shape, as the data of the notebook guarantees.
NumPy behaviours that matter to the claims are modelled explicitly:

* `np.argmin` returns the index of the *first* occurrence of the minimum in
  the flattened (row-major) array, and raises `ValueError` on an empty array
  (modelled by `Option`);
* subtraction of two 1-D arrays broadcasts a length-1 operand and raises a
  shape error otherwise (modelled by `Option`);
* `np.mean` of an empty array returns `nan` (a value, not an exception), and
  `np.sqrt` of a negative number returns `nan` (modelled by `NpVal`).

The model uses exact real arithmetic, so properties that hinge on float64
rounding of the transcendental functions — for instance that `np.sin(np.pi)`
is about `1.22e-16` rather than exactly 0, which gives a cell offset by 360
degrees of longitude a computed distance of about `1.2e-9` meters instead of
the exact 0 of the real model — are outside its scope.
-/

namespace Workshop2018

noncomputable section

/-- The NumPy function `arctan2(y, x)`: the angle of the point `(x, y)` in `(-π, π]`,
with `arctan2 0 0 = 0`. -/
def arctan2 (y x : ℝ) : ℝ :=
  if 0 < x then Real.arctan (y / x)
  else if x < 0 then
    (if 0 ≤ y then Real.arctan (y / x) + Real.pi else Real.arctan (y / x) - Real.pi)
  else if 0 < y then Real.pi / 2
  else if y < 0 then -(Real.pi / 2)
  else 0

/-- Radius of the Earth in meters, `R = 6373.*1000.` as in the notebook. -/
def R : ℝ := 6373 * 1000

/-- Degree-to-radian conversion factor, `rad = np.pi/180.`. -/
def rad : ℝ := Real.pi / 180

/-- The haversine quantity `a` computed by `lat_lon_2D_index` at cell `(i, j)`:
`a = (sin(rad*dlat/2))**2 + cos(rad*y1) * cos(rad*y) * (sin(rad*dlon/2))**2`
where `dlat = |y[i,j] - lat1|`, `dlon = |x[i,j] - lon1|` and `y1` is the
broadcast target latitude `lat1`. -/
def hav_a (y x : ℕ → ℕ → ℝ) (lat1 lon1 : ℝ) (i j : ℕ) : ℝ :=
  Real.sin (rad * |y i j - lat1| / 2) ^ 2 +
    Real.cos (rad * lat1) * Real.cos (rad * y i j) *
      Real.sin (rad * |x i j - lon1| / 2) ^ 2

/-- The angular distance `c = 2 * arctan2(sqrt(a), sqrt(1-a))` at cell `(i, j)`. -/
def hav_c (y x : ℕ → ℕ → ℝ) (lat1 lon1 : ℝ) (i j : ℕ) : ℝ :=
  2 * arctan2 (Real.sqrt (hav_a y x lat1 lon1 i j))
      (Real.sqrt (1 - hav_a y x lat1 lon1 i j))

/-- The linear haversine distance `d = R * c` at cell `(i, j)`. -/
def hav_d (y x : ℕ → ℕ → ℝ) (lat1 lon1 : ℝ) (i j : ℕ) : ℝ :=
  R * hav_c y x lat1 lon1 i j

/-- Here `argminAux g t` is the index of the first occurrence of the minimum of
`g` over `{0, …, t}`, scanning left to right and replacing the current best
only on a strict decrease — exactly the semantics of `np.argmin` restricted
to the first `t + 1` entries of the flattened array. -/
def argminAux (g : ℕ → ℝ) : ℕ → ℕ
  | 0 => 0
  | t + 1 => if g (t + 1) < g (argminAux g t) then t + 1 else argminAux g t

/-- The flattened (row-major) distance array of shape `(m, n)`: entry `k`
is the distance at cell `(k / n, k % n)`. -/
def dflat (y x : ℕ → ℕ → ℝ) (lat1 lon1 : ℝ) (n k : ℕ) : ℝ :=
  hav_d y x lat1 lon1 (k / n) (k % n)

/-- The function `lat_lon_2D_index(y, x, lat1, lon1)` of the notebook, for grids of shape
`(m, n)`: computes the haversine distance `d` to every cell and returns
`np.unravel_index(d.argmin(), d.shape)`.  On an empty grid `np.argmin`
raises `ValueError`, modelled by `none`. -/
def lat_lon_2D_index (m n : ℕ) (y x : ℕ → ℕ → ℝ) (lat1 lon1 : ℝ) :
    Option (ℕ × ℕ) :=
  if m * n = 0 then none
  else
    let k0 := argminAux (dflat y x lat1 lon1 n) (m * n - 1)
    some (k0 / n, k0 % n)

/-- A NumPy floating-point scalar result: either `nan` or an actual real. -/
inductive NpVal where
  | nan : NpVal
  | val : ℝ → NpVal
deriving DecidableEq

/-- Elementwise subtraction of two 1-D NumPy arrays: equal lengths subtract
elementwise; a length-1 operand is broadcast against the other; any other
shape combination raises a broadcast error (`none`). -/
def npSub (p t : List ℝ) : Option (List ℝ) :=
  if p.length = t.length then some (List.zipWith (fun u v => u - v) p t)
  else if t.length = 1 then some (p.map (fun u => u - t.headI))
  else if p.length = 1 then some (t.map (fun v => p.headI - v))
  else none

/-- Model of `np.mean` of a 1-D array: the sum divided by the length; on an empty
array NumPy emits a `RuntimeWarning` and returns `nan`. -/
def npMean (l : List ℝ) : NpVal :=
  if l.isEmpty then NpVal.nan else NpVal.val (l.sum / l.length)

/-- Model of `np.sqrt` on a scalar: `nan` propagates, and a negative argument
yields `nan`. -/
def npSqrt : NpVal → NpVal
  | NpVal.nan => NpVal.nan
  | NpVal.val v => if v < 0 then NpVal.nan else NpVal.val (Real.sqrt v)

/-- The function of the notebook `rmse(predictions, targets) =
np.sqrt(((predictions - targets) ** 2).mean())` on 1-D arrays.  `none`
models a raised broadcast error; `some NpVal.nan` models a returned `nan`. -/
def rmse (predictions targets : List ℝ) : Option NpVal :=
  (npSub predictions targets).map
    (fun e => npSqrt (npMean (e.map (fun z => z ^ 2))))

end

/-! ### Helper lemmas about `argminAux` (the semantics of `np.argmin`) -/

theorem argminAux_le (g : ℕ → ℝ) (t : ℕ) : argminAux g t ≤ t := by
  induction t with
  | zero => simp [argminAux]
  | succ t ih =>
    unfold argminAux
    split
    · exact le_refl _
    · exact le_trans ih (Nat.le_succ t)

theorem argminAux_min (g : ℕ → ℝ) (t : ℕ) :
    ∀ k ≤ t, g (argminAux g t) ≤ g k := by
  induction t with
  | zero =>
    intro k hk
    interval_cases k
    simp [argminAux]
  | succ t ih =>
    intro k hk
    unfold argminAux
    rcases eq_or_lt_of_le hk with h | h
    · subst h
      split
      · exact le_refl _
      · exact le_of_not_lt (by assumption)
    · have hk' : k ≤ t := Nat.lt_succ_iff.mp h
      split
      · rename_i hlt
        exact le_of_lt (lt_of_lt_of_le hlt (ih k hk'))
      · exact ih k hk'

theorem argminAux_first (g : ℕ → ℝ) (t : ℕ) :
    ∀ k < argminAux g t, g (argminAux g t) < g k := by
  induction t with
  | zero =>
    intro k hk
    simp [argminAux] at hk
  | succ t ih =>
    intro k hk
    unfold argminAux at hk ⊢
    split
    · rename_i hlt
      have hk' : k ≤ t := by
        rw [if_pos hlt] at hk
        exact Nat.lt_succ_iff.mp hk
      exact lt_of_lt_of_le hlt (argminAux_min g t k hk')
    · rename_i hge
      rw [if_neg hge] at hk
      exact ih k hk

/-! ### Helper lemmas about `lat_lon_2D_index` -/

theorem lat_lon_2D_index_eq (m n : ℕ) (y x : ℕ → ℕ → ℝ) (lat1 lon1 : ℝ)
    (hm : 0 < m) (hn : 0 < n) :
    lat_lon_2D_index m n y x lat1 lon1 =
      some (argminAux (dflat y x lat1 lon1 n) (m * n - 1) / n,
            argminAux (dflat y x lat1 lon1 n) (m * n - 1) % n) := by
  have h : m * n ≠ 0 := Nat.mul_ne_zero hm.ne' hn.ne'
  simp [lat_lon_2D_index, h]

/-- The flat index of a cell `(i, j)` with `j < n` unravels back to `(i, j)`. -/
theorem flat_unravel (n i j : ℕ) (hj : j < n) :
    (i * n + j) / n = i ∧ (i * n + j) % n = j := by
  have hn : 0 < n := lt_of_le_of_lt (Nat.zero_le j) hj
  refine ⟨?_, ?_⟩
  · rw [show i * n + j = j + n * i by ring, Nat.add_mul_div_left _ _ hn,
      Nat.div_eq_of_lt hj, Nat.zero_add]
  · rw [show i * n + j = j + i * n by ring, Nat.add_mul_mod_self_right,
      Nat.mod_eq_of_lt hj]

/-! ### The index returned by `lat_lon_2D_index` -/

theorem argminAux_lt (g : ℕ → ℝ) (N : ℕ) (hN : 0 < N) :
    argminAux g (N - 1) < N :=
  lt_of_le_of_lt (argminAux_le g (N - 1)) (Nat.sub_lt hN one_pos)

theorem flat_lt (m n i j : ℕ) (hi : i < m) (hj : j < n) :
    i * n + j < m * n := by
  have h1 : i * n + j < (i + 1) * n := by
    rw [add_one_mul]
    exact Nat.add_lt_add_left hj _
  exact lt_of_lt_of_le h1 (Nat.mul_le_mul_right n (Nat.succ_le_of_lt hi))

theorem locator_returns_argmin (m n : ℕ) (y x : ℕ → ℕ → ℝ) (lat1 lon1 : ℝ)
    (hm : 0 < m) (hn : 0 < n) :
    ∃ i j, lat_lon_2D_index m n y x lat1 lon1 = some (i, j) ∧
      i < m ∧ j < n ∧
      i * n + j = argminAux (dflat y x lat1 lon1 n) (m * n - 1) := by
  set g := dflat y x lat1 lon1 n with hg
  set k0 := argminAux g (m * n - 1) with hk0
  have hmn : 0 < m * n := Nat.mul_pos hm hn
  have hlt : k0 < m * n := argminAux_lt g (m * n) hmn
  refine ⟨k0 / n, k0 % n, lat_lon_2D_index_eq m n y x lat1 lon1 hm hn, ?_, ?_, ?_⟩
  · exact (Nat.div_lt_iff_lt_mul hn).mpr hlt
  · exact Nat.mod_lt _ hn
  · rw [Nat.div_add_mod' k0 n]

theorem dflat_at_cell (y x : ℕ → ℕ → ℝ) (lat1 lon1 : ℝ) (n i j : ℕ)
    (hj : j < n) :
    dflat y x lat1 lon1 n (i * n + j) = hav_d y x lat1 lon1 i j := by
  obtain ⟨hdiv, hmod⟩ := flat_unravel n i j hj
  rw [dflat, hdiv, hmod]

theorem locator_min_at (m n : ℕ) (y x : ℕ → ℕ → ℝ) (lat1 lon1 : ℝ)
    (i' j' : ℕ) (hi' : i' < m) (hj' : j' < n) :
    dflat y x lat1 lon1 n (argminAux (dflat y x lat1 lon1 n) (m * n - 1)) ≤
      hav_d y x lat1 lon1 i' j' := by
  have hk' : i' * n + j' < m * n := flat_lt m n i' j' hi' hj'
  have h := argminAux_min (dflat y x lat1 lon1 n) (m * n - 1) (i' * n + j')
    (Nat.le_pred_of_lt hk')
  rwa [dflat_at_cell y x lat1 lon1 n i' j' hj'] at h

/-! ### Helper lemmas about `rmse` -/

theorem zipWith_sub_sq_comm (A B : List ℝ) :
    (List.zipWith (fun u v => u - v) A B).map (fun z => z ^ 2) =
      (List.zipWith (fun u v => u - v) B A).map (fun z => z ^ 2) := by
  induction A generalizing B with
  | nil => cases B <;> simp
  | cons a A ih =>
    cases B with
    | nil => simp
    | cons b B =>
      simp only [List.zipWith_cons_cons, List.map_cons, ih]
      congr 1
      ring

theorem zipWith_sub_self (A : List ℝ) :
    List.zipWith (fun u v => u - v) A A = List.replicate A.length 0 := by
  induction A with
  | nil => rfl
  | cons a A ih => simp [List.replicate_succ, ih]

theorem zipWith_sub_sq_eq_zip_map (A B : List ℝ) :
    (List.zipWith (fun u v => u - v) A B).map (fun z => z ^ 2) =
      (A.zip B).map (fun p => (p.1 - p.2) ^ 2) := by
  induction A generalizing B with
  | nil => simp
  | cons a A ih =>
    cases B with
    | nil => simp
    | cons b B => simp [ih]

theorem npMean_perm (l l2 : List ℝ) (h : l.Perm l2) : npMean l = npMean l2 := by
  unfold npMean
  have hlen : l.length = l2.length := h.length_eq
  have hsum : l.sum = l2.sum := h.sum_eq
  have hemp : l.isEmpty = l2.isEmpty := by
    cases l with
    | nil =>
      cases l2 with
      | nil => rfl
      | cons b l2 => simp at hlen
    | cons a l =>
      cases l2 with
      | nil => simp at hlen
      | cons b l2 => rfl
  rw [hlen, hsum, hemp]

/-! ### The claims -/

/-- C1: for every non-empty pair of equal-shape 2D latitude/longitude grids
and every target point `(lat1, lon1)` in degrees, the nearest-point locator
computes for each cell the haversine great-circle distance
`a = sin²(Δlat/2) + cos(lat1)·cos(lat)·sin²(Δlon/2)`,
`c = 2·atan2(√a, √(1−a))`, `d = R·c` with Earth radius `R = 6,373,000`
meters, and returns the `(row, column)` index of a cell whose distance `d`
is minimal over the whole grid. -/
theorem C1_locator_minimizes_haversine (m n : ℕ) (y x : ℕ → ℕ → ℝ)
    (lat1 lon1 : ℝ) (hm : 0 < m) (hn : 0 < n) :
    (∀ i j, hav_d y x lat1 lon1 i j =
      6373000 * (2 * arctan2
        (Real.sqrt (Real.sin (Real.pi / 180 * |y i j - lat1| / 2) ^ 2 +
          Real.cos (Real.pi / 180 * lat1) * Real.cos (Real.pi / 180 * y i j) *
            Real.sin (Real.pi / 180 * |x i j - lon1| / 2) ^ 2))
        (Real.sqrt (1 -
          (Real.sin (Real.pi / 180 * |y i j - lat1| / 2) ^ 2 +
            Real.cos (Real.pi / 180 * lat1) * Real.cos (Real.pi / 180 * y i j) *
              Real.sin (Real.pi / 180 * |x i j - lon1| / 2) ^ 2))))) ∧
    ∃ i j, lat_lon_2D_index m n y x lat1 lon1 = some (i, j) ∧
      i < m ∧ j < n ∧ ∀ i' j', i' < m → j' < n →
        hav_d y x lat1 lon1 i j ≤ hav_d y x lat1 lon1 i' j' := by
  constructor
  · intro i j
    norm_num [hav_d, hav_c, hav_a, R, rad]
  · obtain ⟨i, j, heq, hi, hj, hflat⟩ :=
      locator_returns_argmin m n y x lat1 lon1 hm hn
    refine ⟨i, j, heq, hi, hj, ?_⟩
    intro i' j' hi' hj'
    have hmin := locator_min_at m n y x lat1 lon1 i' j' hi' hj'
    rwa [← hflat, dflat_at_cell y x lat1 lon1 n i j hj] at hmin

/-- C1 witness: instantiation at the 1×1 grid with all coordinates 0. -/
theorem C1_locator_minimizes_haversine_witness :
    ∃ i j, lat_lon_2D_index 1 1 (fun _ _ => 0) (fun _ _ => 0) 0 0 =
        some (i, j) ∧ i < 1 ∧ j < 1 ∧ ∀ i' j', i' < 1 → j' < 1 →
      hav_d (fun _ _ => 0) (fun _ _ => 0) 0 0 i j ≤
        hav_d (fun _ _ => 0) (fun _ _ => 0) 0 0 i' j' :=
  (C1_locator_minimizes_haversine 1 1 (fun _ _ => 0) (fun _ _ => 0) 0 0
    Nat.one_pos Nat.one_pos).2

/-- C4: for every non-empty grid in which two or more cells attain the
minimal haversine distance to the target point, the nearest-point locator
returns the index of the first minimal-distance cell in row-major
(flattened) order: the returned cell is minimal, and its flat index
`i * n + j` is at most the flat index of any other minimal cell. -/
theorem C4_first_min_row_major (m n : ℕ) (y x : ℕ → ℕ → ℝ)
    (lat1 lon1 : ℝ) (hm : 0 < m) (hn : 0 < n) :
    ∃ i j, lat_lon_2D_index m n y x lat1 lon1 = some (i, j) ∧
      i < m ∧ j < n ∧
      (∀ i' j', i' < m → j' < n →
        hav_d y x lat1 lon1 i j ≤ hav_d y x lat1 lon1 i' j') ∧
      (∀ i' j', i' < m → j' < n →
        hav_d y x lat1 lon1 i' j' ≤ hav_d y x lat1 lon1 i j →
          i * n + j ≤ i' * n + j') := by
  obtain ⟨i, j, heq, hi, hj, hflat⟩ :=
    locator_returns_argmin m n y x lat1 lon1 hm hn
  have hij : dflat y x lat1 lon1 n (i * n + j) = hav_d y x lat1 lon1 i j :=
    dflat_at_cell y x lat1 lon1 n i j hj
  refine ⟨i, j, heq, hi, hj, ?_, ?_⟩
  · intro i' j' hi' hj'
    have hmin := locator_min_at m n y x lat1 lon1 i' j' hi' hj'
    rwa [← hflat, hij] at hmin
  · intro i' j' hi' hj' hle
    by_contra hcon
    push_neg at hcon
    rw [hflat] at hcon
    have hfirst := argminAux_first (dflat y x lat1 lon1 n) (m * n - 1)
      (i' * n + j') hcon
    rw [← hflat, hij, dflat_at_cell y x lat1 lon1 n i' j' hj'] at hfirst
    linarith

/-- C4 witness: instantiation at the 1×1 grid with all coordinates 0. -/
theorem C4_first_min_row_major_witness :
    ∃ i j, lat_lon_2D_index 1 1 (fun _ _ => 0) (fun _ _ => 0) 0 0 =
        some (i, j) ∧ i < 1 ∧ j < 1 ∧
      (∀ i' j', i' < 1 → j' < 1 →
        hav_d (fun _ _ => 0) (fun _ _ => 0) 0 0 i j ≤
          hav_d (fun _ _ => 0) (fun _ _ => 0) 0 0 i' j') ∧
      (∀ i' j', i' < 1 → j' < 1 →
        hav_d (fun _ _ => 0) (fun _ _ => 0) 0 0 i' j' ≤
          hav_d (fun _ _ => 0) (fun _ _ => 0) 0 0 i j →
            i * 1 + j ≤ i' * 1 + j') :=
  C4_first_min_row_major 1 1 (fun _ _ => 0) (fun _ _ => 0) 0 0
    Nat.one_pos Nat.one_pos

/-- C10: for every non-empty grid of shape `(m, n)`, the index
`(row, column)` returned by the nearest-point locator is in bounds:
`row < m` and `column < n`. -/
theorem C10_returned_index_in_bounds (m n : ℕ) (y x : ℕ → ℕ → ℝ)
    (lat1 lon1 : ℝ) (hm : 0 < m) (hn : 0 < n) :
    ∃ i j, lat_lon_2D_index m n y x lat1 lon1 = some (i, j) ∧
      i < m ∧ j < n := by
  obtain ⟨i, j, heq, hi, hj, _⟩ :=
    locator_returns_argmin m n y x lat1 lon1 hm hn
  exact ⟨i, j, heq, hi, hj⟩

/-- C10 witness: instantiation at the 1×1 grid with all coordinates 0. -/
theorem C10_returned_index_in_bounds_witness :
    ∃ i j, lat_lon_2D_index 1 1 (fun _ _ => 0) (fun _ _ => 0) 0 0 =
      some (i, j) ∧ i < 1 ∧ j < 1 :=
  C10_returned_index_in_bounds 1 1 (fun _ _ => 0) (fun _ _ => 0) 0 0
    Nat.one_pos Nat.one_pos

/-- C3 counterexample: `rmse` applied to empty prediction and target series
does not surface an error — the NumPy mean of an empty array is `nan`, so the
call returns the value `nan`. -/
theorem C3_empty_series_counterexample :
    rmse [] [] = some NpVal.nan := by
  simp [rmse, npSub, npMean, npSqrt]

/-- C3 amended: an empty input grid is a failure of the locator (`argmin`
of an empty array raises `ValueError`), but empty prediction/target series
given to `rmse` do not fail: the call returns the value `nan`. -/
theorem C3_empty_inputs (n : ℕ) (y x : ℕ → ℕ → ℝ) (lat1 lon1 : ℝ) :
    lat_lon_2D_index 0 n y x lat1 lon1 = none ∧
    lat_lon_2D_index n 0 y x lat1 lon1 = none ∧
    rmse [] [] = some NpVal.nan := by
  refine ⟨?_, ?_, ?_⟩
  · simp [lat_lon_2D_index]
  · simp [lat_lon_2D_index]
  · simp [rmse, npSub, npMean, npSqrt]

/-- C2 counterexample: `rmse` on sequences of lengths 3 and 1 does not fail
with a length-mismatch error — NumPy broadcasts the length-1 operand and a
result is returned. -/
theorem C2_broadcast_counterexample :
    rmse [0, 0, 0] [0] = some (NpVal.val 0) := by
  have h1 : ([0, 0, 0] : List ℝ) ≠ [] := by simp
  norm_num [rmse, npSub, npMean, npSqrt, List.headI, Real.sqrt_zero, h1]

/-- C2 amended: `rmse` on sequences of unequal length fails with a
broadcast (length-mismatch) error exactly when neither sequence has
length 1; a length-1 sequence is broadcast against the other and a result
is returned. -/
theorem C2_unequal_length_error (p t : List ℝ)
    (h : p.length ≠ t.length) :
    rmse p t = none ↔ p.length ≠ 1 ∧ t.length ≠ 1 := by
  unfold rmse npSub
  rw [if_neg h]
  by_cases h1 : t.length = 1
  · rw [if_pos h1]
    simp [h1]
  · rw [if_neg h1]
    by_cases h2 : p.length = 1
    · rw [if_pos h2]
      simp [h1, h2]
    · rw [if_neg h2]
      simp [h1, h2]

/-- C2 witness: sequences of lengths 2 and 3 (neither of length 1) make
`rmse` fail. -/
theorem C2_unequal_length_error_witness :
    rmse [0, 0] [0, 0, 0] = none ↔
      ([0, 0] : List ℝ).length ≠ 1 ∧ ([0, 0, 0] : List ℝ).length ≠ 1 :=
  C2_unequal_length_error [0, 0] [0, 0, 0] (by norm_num)

/-- C6: for every pair of equal-length numeric sequences `A` and `B`,
`rmse A B = rmse B A` — RMSE is invariant under swapping the prediction and
target arguments. -/
theorem C6_rmse_symmetric (A B : List ℝ) (h : A.length = B.length) :
    rmse A B = rmse B A := by
  unfold rmse npSub
  rw [if_pos h, if_pos h.symm]
  simp only [Option.map_some']
  rw [zipWith_sub_sq_comm]

/-- C6 witness: `rmse [1,2] [3,4] = rmse [3,4] [1,2]`. -/
theorem C6_rmse_symmetric_witness :
    rmse [1, 2] [3, 4] = rmse [3, 4] [1, 2] :=
  C6_rmse_symmetric [1, 2] [3, 4] rfl

/-- C7: for every non-empty numeric sequence `A`, `rmse A A` is exactly 0:
identical prediction and target sequences yield an RMSE of exactly zero. -/
theorem C7_rmse_self_zero (A : List ℝ) (hA : A ≠ []) :
    rmse A A = some (NpVal.val 0) := by
  unfold rmse npSub
  rw [if_pos rfl]
  simp only [Option.map_some']
  rw [zipWith_sub_self]
  have hsq : (List.replicate A.length (0 : ℝ)).map (fun z => z ^ 2) =
      List.replicate A.length 0 := by
    rw [List.map_replicate]
    norm_num
  rw [hsq]
  unfold npMean
  have hemp : (List.replicate A.length (0 : ℝ)).isEmpty = false := by
    cases A with
    | nil => exact absurd rfl hA
    | cons a A => rfl
  rw [hemp]
  simp [npSqrt, List.sum_replicate, Real.sqrt_zero]

/-- C7 witness: `rmse [1,2,3] [1,2,3] = 0`. -/
theorem C7_rmse_self_zero_witness :
    rmse [1, 2, 3] [1, 2, 3] = some (NpVal.val 0) :=
  C7_rmse_self_zero [1, 2, 3] (by simp)

/-- C8: `rmse` is a pure, order-independent reduction: applying the same
permutation to both equal-length sequences — i.e. permuting the list of
paired entries — leaves the result unchanged.  (Freedom from side effects
is inherent in the functional model.) -/
theorem C8_rmse_permutation_invariant (A B A2 B2 : List ℝ)
    (hAB : A.length = B.length) (hA2B2 : A2.length = B2.length)
    (hperm : (A.zip B).Perm (A2.zip B2)) :
    rmse A B = rmse A2 B2 := by
  unfold rmse npSub
  rw [if_pos hAB, if_pos hA2B2]
  simp only [Option.map_some']
  rw [zipWith_sub_sq_eq_zip_map, zipWith_sub_sq_eq_zip_map]
  have hp : ((A.zip B).map (fun p => (p.1 - p.2) ^ 2)).Perm
      ((A2.zip B2).map (fun p => (p.1 - p.2) ^ 2)) := hperm.map _
  rw [npMean_perm _ _ hp]

/-- C8 witness: swapping the two paired entries of `([1,2], [3,4])` gives
`([2,1], [4,3])` and the same RMSE. -/
theorem C8_rmse_permutation_invariant_witness :
    rmse [1, 2] [3, 4] = rmse [2, 1] [4, 3] :=
  C8_rmse_permutation_invariant [1, 2] [3, 4] [2, 1] [4, 3] rfl rfl
    (List.Perm.swap ((2 : ℝ), (4 : ℝ)) ((1 : ℝ), (3 : ℝ)) [])

end Workshop2018
